import Mathlib

/-!
# Verification of the provably-fair Bitcoin dice service

Shallow embedding of the bet-settlement pipeline of the repository
(`backend/app/services/*.py`, `backend/app/utils/counter.py`) and proofs of
the specification claims about it.

Bytes are modelled as `Nat` values below 256, machine words as `Nat` with
explicit reduction `% 2 ^ 64` (resp. `% 2 ^ 32`), money amounts as `ℤ`
(satoshis), and Python floats that only ever hold exact multiples of `1/100`
as `ℚ`.
-/

namespace Dice

/-! ## Bytes, hex strings and UTF-8 encoding -/

/-- Big-endian byte decomposition of `v` into `n` bytes (most significant
first), as produced when serialising a word of a hash state. -/
def toBytesBE : Nat → Nat → List Nat
  | 0, _ => []
  | n + 1, v => toBytesBE n (v / 256) ++ [v % 256]

/-- Big-endian recomposition of a byte list into a number. -/
def bytesToWord (l : List Nat) : Nat :=
  l.foldl (fun a b => a * 256 + b) 0

/-- Split a list into chunks of size `n + 1` (the successor argument makes the
recursion structurally decreasing). -/
def chunks (n : Nat) : List α → List (List α)
  | [] => []
  | x :: xs => (x :: xs).take (n + 1) :: chunks n ((x :: xs).drop (n + 1))
termination_by l => l.length
decreasing_by
  simp only [List.drop_succ_cons, List.length_drop, List.length_cons]
  omega

/-- Lower-case hex digit for a nibble, as in Python's `hexdigest`. -/
def hexChar (n : Nat) : Char :=
  if n < 10 then Char.ofNat (48 + n) else Char.ofNat (87 + n)

/-- Two lower-case hex digits of a byte. -/
def byteToHex (b : Nat) : List Char :=
  [hexChar (b / 16), hexChar (b % 16)]

/-- Lower-case hex string of a byte list (Python's `.hexdigest()`). -/
def hexdigest (bytes : List Nat) : String :=
  String.mk (List.flatten (bytes.map byteToHex))

/-- Numeric value of a hex digit, as accepted by Python's `int(s, 16)`
(lower-case, upper-case and decimal digits). -/
def hexVal (c : Char) : Nat :=
  if 97 ≤ c.toNat then c.toNat - 87
  else if 65 ≤ c.toNat then c.toNat - 55
  else c.toNat - 48

/-- Base-16 interpretation of a list of hex digits (Python's `int(s, 16)`). -/
def parseHexNat (l : List Char) : Nat :=
  l.foldl (fun a c => 16 * a + hexVal c) 0

/-- UTF-8 encoding of a single code point (`str.encode()` in Python). -/
def utf8EncodeCodePoint (c : Nat) : List Nat :=
  if c < 0x80 then [c]
  else if c < 0x800 then
    [0xC0 ||| (c >>> 6), 0x80 ||| (c &&& 0x3F)]
  else if c < 0x10000 then
    [0xE0 ||| (c >>> 12), 0x80 ||| ((c >>> 6) &&& 0x3F), 0x80 ||| (c &&& 0x3F)]
  else
    [0xF0 ||| (c >>> 18), 0x80 ||| ((c >>> 12) &&& 0x3F),
     0x80 ||| ((c >>> 6) &&& 0x3F), 0x80 ||| (c &&& 0x3F)]

/-- UTF-8 bytes of a string, the model of Python's `str.encode()`. -/
def strBytes (s : String) : List Nat :=
  List.flatten (s.data.map (fun c => utf8EncodeCodePoint c.toNat))

/-! ## SHA-512 (FIPS 180-4), the primitive behind `hashlib.sha512` -/

namespace SHA512

def M64 : Nat := 2 ^ 64

def rotr (n x : Nat) : Nat := ((x >>> n) ||| (x <<< (64 - n))) % M64

def shr (n x : Nat) : Nat := x >>> n

def bigSigma0 (x : Nat) : Nat := (rotr 28 x) ^^^ (rotr 34 x) ^^^ (rotr 39 x)

def bigSigma1 (x : Nat) : Nat := (rotr 14 x) ^^^ (rotr 18 x) ^^^ (rotr 41 x)

def smallSigma0 (x : Nat) : Nat := (rotr 1 x) ^^^ (rotr 8 x) ^^^ (shr 7 x)

def smallSigma1 (x : Nat) : Nat := (rotr 19 x) ^^^ (rotr 61 x) ^^^ (shr 6 x)

def ch (x y z : Nat) : Nat := (x &&& y) ^^^ ((x ^^^ (M64 - 1)) &&& z)

def maj (x y z : Nat) : Nat := (x &&& y) ^^^ (x &&& z) ^^^ (y &&& z)

/-- The 80 round constants K of SHA-512 (FIPS 180-4 §4.2.3), packed as
16-hex-digit words. -/
def K : List Nat :=
  (chunks 15
    ("428a2f98d728ae227137449123ef65cdb5c0fbcfec4d3b2fe9b5dba58189dbbc3956c25bf348b538" ++
     "59f111f1b605d019923f82a4af194f9bab1c5ed5da6d8118d807aa98a303024212835b0145706fbe" ++
     "243185be4ee4b28c550c7dc3d5ffb4e272be5d74f27b896f80deb1fe3b1696b19bdc06a725c71235" ++
     "c19bf174cf692694e49b69c19ef14ad2efbe4786384f25e30fc19dc68b8cd5b5240ca1cc77ac9c65" ++
     "2de92c6f592b02754a7484aa6ea6e4835cb0a9dcbd41fbd476f988da831153b5983e5152ee66dfab" ++
     "a831c66d2db43210b00327c898fb213fbf597fc7beef0ee4c6e00bf33da88fc2d5a79147930aa725" ++
     "06ca6351e003826f142929670a0e6e7027b70a8546d22ffc2e1b21385c26c9264d2c6dfc5ac42aed" ++
     "53380d139d95b3df650a73548baf63de766a0abb3c77b2a881c2c92e47edaee692722c851482353b" ++
     "a2bfe8a14cf10364a81a664bbc423001c24b8b70d0f89791c76c51a30654be30d192e819d6ef5218" ++
     "d69906245565a910f40e35855771202a106aa07032bbd1b819a4c116b8d2d0c81e376c085141ab53" ++
     "2748774cdf8eeb9934b0bcb5e19b48a8391c0cb3c5c95a634ed8aa4ae3418acb5b9cca4f7763e373" ++
     "682e6ff3d6b2b8a3748f82ee5defb2fc78a5636f43172f6084c87814a1f0ab728cc702081a6439ec" ++
     "90befffa23631e28a4506cebde82bde9bef9a3f7b2c67915c67178f2e372532bca273eceea26619c" ++
     "d186b8c721c0c207eada7dd6cde0eb1ef57d4f7fee6ed17806f067aa72176fba0a637dc5a2c898a6" ++
     "113f9804bef90dae1b710b35131c471b28db77f523047d8432caab7b40c724933c9ebe0a15c9bebc" ++
     "431d67c49c100d4c4cc5d4becb3e42b6597f299cfc657e2a5fcb6fab3ad6faec6c44198c4a475817").data).map
    parseHexNat

/-- Initial hash value H⁽⁰⁾ of SHA-512 (FIPS 180-4 §5.3.5), packed as
16-hex-digit words. -/
def H0 : List Nat :=
  (chunks 15
    ("6a09e667f3bcc908bb67ae8584caa73b3c6ef372fe94f82ba54ff53a5f1d36f1" ++
     "510e527fade682d19b05688c2b3e6c1f1f83d9abfb41bd6b5be0cd19137e2179").data).map
    parseHexNat

/-- Number of zero pad bytes so the padded length is ≡ 112 (mod 128). -/
def padZeros (len : Nat) : Nat := (112 + 128 - ((len + 1) % 128)) % 128

/-- Message schedule W₀..W₇₉ extended from the 16 words of a block. -/
def messageSchedule (block : List Nat) : List Nat :=
  (List.range 64).foldl
    (fun w _ =>
      w ++ [(smallSigma1 (w.getD (w.length - 2) 0) + w.getD (w.length - 7) 0 +
             smallSigma0 (w.getD (w.length - 15) 0) + w.getD (w.length - 16) 0) % M64])
    block

/-- One SHA-512 compression of a 16-word block into the running hash. -/
def compress (hWords block : List Nat) : List Nat :=
  let w := messageSchedule block
  let fin := (List.range 80).foldl
    (fun st t =>
      match st with
      | [a, b, c, d, e, f, g, h] =>
        let t1 := (h + bigSigma1 e + ch e f g + K.getD t 0 + w.getD t 0) % M64
        let t2 := (bigSigma0 a + maj a b c) % M64
        [(t1 + t2) % M64, a, b, c, (d + t1) % M64, e, f, g]
      | other => other)
    hWords
  List.zipWith (fun x y => (x + y) % M64) hWords fin

/-- SHA-512 digest (64 bytes) of a byte message. -/
def sha512Bytes (msg : List Nat) : List Nat :=
  let padded := msg ++ [0x80] ++ List.replicate (padZeros msg.length) 0 ++
    toBytesBE 16 (8 * msg.length)
  let blocks := (chunks 127 padded).map (fun b => (chunks 7 b).map bytesToWord)
  List.flatten ((blocks.foldl compress H0).map (toBytesBE 8))

end SHA512

/-! ## SHA-256 (FIPS 180-4), the primitive behind `hashlib.sha256` -/

namespace SHA256

def M32 : Nat := 2 ^ 32

def rotr (n x : Nat) : Nat := ((x >>> n) ||| (x <<< (32 - n))) % M32

def shr (n x : Nat) : Nat := x >>> n

def bigSigma0 (x : Nat) : Nat := (rotr 2 x) ^^^ (rotr 13 x) ^^^ (rotr 22 x)

def bigSigma1 (x : Nat) : Nat := (rotr 6 x) ^^^ (rotr 11 x) ^^^ (rotr 25 x)

def smallSigma0 (x : Nat) : Nat := (rotr 7 x) ^^^ (rotr 18 x) ^^^ (shr 3 x)

def smallSigma1 (x : Nat) : Nat := (rotr 17 x) ^^^ (rotr 19 x) ^^^ (shr 10 x)

def ch (x y z : Nat) : Nat := (x &&& y) ^^^ ((x ^^^ (M32 - 1)) &&& z)

def maj (x y z : Nat) : Nat := (x &&& y) ^^^ (x &&& z) ^^^ (y &&& z)

/-- The 64 round constants K of SHA-256 (FIPS 180-4 §4.2.2), packed as
8-hex-digit words. -/
def K : List Nat :=
  (chunks 7
    ("428a2f9871374491b5c0fbcfe9b5dba53956c25b59f111f1923f82a4ab1c5ed5d807aa9812835b01" ++
     "243185be550c7dc372be5d7480deb1fe9bdc06a7c19bf174e49b69c1efbe47860fc19dc6240ca1cc" ++
     "2de92c6f4a7484aa5cb0a9dc76f988da983e5152a831c66db00327c8bf597fc7c6e00bf3d5a79147" ++
     "06ca63511429296727b70a852e1b21384d2c6dfc53380d13650a7354766a0abb81c2c92e92722c85" ++
     "a2bfe8a1a81a664bc24b8b70c76c51a3d192e819d6990624f40e3585106aa07019a4c1161e376c08" ++
     "2748774c34b0bcb5391c0cb34ed8aa4a5b9cca4f682e6ff3748f82ee78a5636f84c878148cc70208" ++
     "90befffaa4506cebbef9a3f7c67178f2").data).map parseHexNat

/-- Initial hash value H⁽⁰⁾ of SHA-256 (FIPS 180-4 §5.3.3), packed as
8-hex-digit words. -/
def H0 : List Nat :=
  (chunks 7
    "6a09e667bb67ae853c6ef372a54ff53a510e527f9b05688c1f83d9ab5be0cd19".data).map
    parseHexNat

/-- Number of zero pad bytes so the padded length is ≡ 56 (mod 64). -/
def padZeros (len : Nat) : Nat := (56 + 64 - ((len + 1) % 64)) % 64

/-- Message schedule W₀..W₆₃ extended from the 16 words of a block. -/
def messageSchedule (block : List Nat) : List Nat :=
  (List.range 48).foldl
    (fun w _ =>
      w ++ [(smallSigma1 (w.getD (w.length - 2) 0) + w.getD (w.length - 7) 0 +
             smallSigma0 (w.getD (w.length - 15) 0) + w.getD (w.length - 16) 0) % M32])
    block

/-- One SHA-256 compression of a 16-word block into the running hash. -/
def compress (hWords block : List Nat) : List Nat :=
  let w := messageSchedule block
  let fin := (List.range 64).foldl
    (fun st t =>
      match st with
      | [a, b, c, d, e, f, g, h] =>
        let t1 := (h + bigSigma1 e + ch e f g + K.getD t 0 + w.getD t 0) % M32
        let t2 := (bigSigma0 a + maj a b c) % M32
        [(t1 + t2) % M32, a, b, c, (d + t1) % M32, e, f, g]
      | other => other)
    hWords
  List.zipWith (fun x y => (x + y) % M32) hWords fin

/-- SHA-256 digest (32 bytes) of a byte message. -/
def sha256Bytes (msg : List Nat) : List Nat :=
  let padded := msg ++ [0x80] ++ List.replicate (padZeros msg.length) 0 ++
    toBytesBE 8 (8 * msg.length)
  let blocks := (chunks 63 padded).map (fun b => (chunks 3 b).map bytesToWord)
  List.flatten ((blocks.foldl compress H0).map (toBytesBE 4))

end SHA256

/-- HMAC-SHA-512 (RFC 2104) over byte lists, the model of
`hmac.new(key, msg, hashlib.sha512)`. -/
def hmacSha512 (key msg : List Nat) : List Nat :=
  let k0 := if 128 < key.length then SHA512.sha512Bytes key else key
  let kPad := k0 ++ List.replicate (128 - k0.length) 0
  let ikey := kPad.map (fun b => b ^^^ 0x36)
  let okey := kPad.map (fun b => b ^^^ 0x5c)
  SHA512.sha512Bytes (okey ++ SHA512.sha512Bytes (ikey ++ msg))

/-! ## Fair Roll Engine (`ProvablyFairService`)

Python floats enter the roll pipeline only as exact multiples of `1/100`
(`(n % 10000) / 100.0` and the two-decimal `chance` values), all of which are
compared and rounded exactly; they are modelled as `ℚ`. -/

/-- Python's `round(q, 2)`. On the exact multiples of `1/100` that the service
produces, it is the identity; away from half-cent ties it rounds to the nearest
hundredth (Python's banker's rounding differs from this model only at exact
half-cent ties, which `round2` sends up). -/
def round2 (q : ℚ) : ℚ := (⌊q * 100 + 1 / 2⌋ : ℚ) / 100

/-- Python's `int(q)`: truncation toward zero. -/
def pyInt (q : ℚ) : ℤ := if 0 ≤ q then ⌊q⌋ else ⌈q⌉

/-- `ProvablyFairService.hash_seed`: SHA-256 hex digest of the UTF-8 seed. -/
def hash_seed (seed : String) : String :=
  hexdigest (SHA256.sha256Bytes (strBytes seed))

/-- `ProvablyFairService.calculate_roll` (identical in
`app/provably_fair.py`): HMAC-SHA-512 of `"{client_seed}:{nonce}"` keyed by
the server seed; first 8 hex chars as an integer; `(n % 10000) / 100`,
rounded to two decimals. -/
def calculate_roll (server_seed client_seed : String) (nonce : Nat) : ℚ :=
  let message := strBytes (client_seed ++ ":" ++ toString nonce)
  let hmac_result := hexdigest (hmacSha512 (strBytes server_seed) message)
  let hex_string := hmac_result.data.take 8
  let result_int := parseHexNat hex_string
  round2 ((result_int % 10000 : Nat) / 100)

/-- The roll formula in the spec's own words: HMAC-SHA-512 with key
`server_seed` over the message `"{client_seed}:{nonce}"`, the first 8 hex
characters of the digest interpreted as an unsigned 32-bit integer `n`, and
`(n mod 10000) / 100` rounded to two decimals. -/
def specRoll (server_seed client_seed : String) (nonce : Nat) : ℚ :=
  let digest := hexdigest (hmacSha512 (strBytes server_seed)
    (strBytes (client_seed ++ ":" ++ toString nonce)))
  let n : Nat := parseHexNat (digest.data.take 8) % 2 ^ 32
  round2 ((n % 10000 : Nat) / 100)

/-- `ProvablyFairService.verify_roll`: tolerance-based comparison of a claimed
roll against the recomputed one. -/
def verify_roll (server_seed client_seed : String) (nonce : Nat)
    (claimed_roll : ℚ) : Bool :=
  decide (|calculate_roll server_seed client_seed nonce - claimed_roll| < 1 / 100)

/-- `ProvablyFairService.is_winning_roll`: a roll wins iff `roll < win_chance`. -/
def is_winning_roll (roll win_chance : ℚ) : Bool :=
  decide (roll < win_chance)

/-- `ProvablyFairService.calculate_payout`: `0` on a loss, else
`int(bet_amount * multiplier)`. -/
def calculate_payout (bet_amount : ℤ) (multiplier : ℚ) (is_win : Bool) : ℤ :=
  if !is_win then 0 else pyInt (bet_amount * multiplier)

/-- Game configuration (`app/core/config.py`), restricted to the keys the
bet-settlement pipeline reads. -/
structure Config where
  HOUSE_EDGE : ℚ
  MIN_BET_SATOSHIS : ℤ
  MAX_BET_SATOSHIS : ℤ
  MIN_MULTIPLIER : ℚ
  MAX_MULTIPLIER : ℚ
  MIN_CONFIRMATIONS_PAYOUT : Nat
  FEE_BUFFER_SATOSHIS : ℤ
  DUST_LIMIT_SATOSHIS : ℤ
  DEFAULT_TX_FEE_SATOSHIS : ℤ
  deriving Repr, DecidableEq

/-- The default configuration values of `app/core/config.py`. -/
def defaultConfig : Config where
  HOUSE_EDGE := 1 / 50
  MIN_BET_SATOSHIS := 600
  MAX_BET_SATOSHIS := 1000000
  MIN_MULTIPLIER := 11 / 10
  MAX_MULTIPLIER := 98
  MIN_CONFIRMATIONS_PAYOUT := 0
  FEE_BUFFER_SATOSHIS := 1000
  DUST_LIMIT_SATOSHIS := 546
  DEFAULT_TX_FEE_SATOSHIS := 250

/-- `ProvablyFairService.calculate_win_chance`:
`round((100 - house_edge_percent) / multiplier, 2)`. -/
def calculate_win_chance (cfg : Config) (multiplier : ℚ) : ℚ :=
  round2 ((100 - cfg.HOUSE_EDGE * 100) / multiplier)

/-- `ProvablyFairService.validate_bet_params` (the boolean component of the
returned pair). -/
def validate_bet_params (cfg : Config) (bet_amount : ℤ) (multiplier : ℚ) :
    Bool :=
  if bet_amount < cfg.MIN_BET_SATOSHIS then false
  else if cfg.MAX_BET_SATOSHIS < bet_amount then false
  else if multiplier < cfg.MIN_MULTIPLIER then false
  else if cfg.MAX_MULTIPLIER < multiplier then false
  else
    let win_chance := calculate_win_chance cfg multiplier
    if win_chance < 1 then false
    else if 98 < win_chance then false
    else true

/-- The dictionary returned by `ProvablyFairService.create_bet_result`. -/
structure BetResultData where
  roll : ℚ
  win_chance : ℚ
  is_win : Bool
  payout : ℤ
  profit : ℤ
  nonce : Nat
  multiplier : ℚ
  bet_amount : ℤ
  deriving Repr, DecidableEq

/-- `ProvablyFairService.create_bet_result`: roll, win decision against the
provided `chance`, payout and profit. -/
def create_bet_result (server_seed client_seed : String) (nonce : Nat)
    (bet_amount : ℤ) (multiplier chance : ℚ) : BetResultData :=
  let roll := calculate_roll server_seed client_seed nonce
  let is_win := decide (roll < chance)
  let payout := calculate_payout bet_amount multiplier is_win
  let profit := if is_win then payout - bet_amount else -bet_amount
  { roll, win_chance := chance, is_win, payout, profit, nonce, multiplier,
    bet_amount }

/-! ## Payout engine (`PayoutService`) -/

inductive PayoutStatus where
  | pending
  | broadcast
  | confirmed
  | failed
  deriving Repr, DecidableEq

/-- A payout document. Mongo object ids are modelled by the number of the
owning bet (payouts are unique per bet). -/
structure Payout where
  bet_number : Nat
  amount : ℤ
  to_address : String
  status : PayoutStatus
  error_message : Option String
  network_fee : Option ℤ
  retry_count : Nat
  max_retries : Nat
  txid : Option String
  deriving Repr, DecidableEq

/-- The payout document inserted by `PayoutService.process_winning_bet`. -/
def newPayout (bet_number : Nat) (amount : ℤ) (to_address : String) : Payout where
  bet_number := bet_number
  amount := amount
  to_address := to_address
  status := .pending
  error_message := none
  network_fee := none
  retry_count := 0
  max_retries := 3
  txid := none

/-- Environment outcome of one build-and-broadcast attempt inside
`PayoutService._broadcast_payout`: the explorer returned a txid, returned a
response without a tx hash, or an exception was raised (UTXO fetch failure,
insufficient funds, signing error, ...). -/
inductive BroadcastOutcome where
  | success (txid : String) (fee : Option ℤ)
  | noHash (err : String)
  | exn (err : String)
  deriving Repr, DecidableEq

/-- `PayoutService._broadcast_payout` as a transformer of the payout document,
parameterised by the attempt outcome. The retry guard runs first; an attempt
increments `retry_count` before broadcasting; an exception whose increment
exhausts the retries also sets the status to `failed`. -/
def broadcast_payout (o : BroadcastOutcome) (p : Payout) : Payout :=
  if p.max_retries ≤ p.retry_count then
    { p with status := .failed, error_message := some "Max retries exceeded" }
  else
    let p1 := { p with retry_count := p.retry_count + 1 }
    match o with
    | .success t fee =>
      { p1 with
        txid := some t,
        status := .broadcast,
        network_fee := (match fee with
          | some f => some f
          | none => p1.network_fee) }
    | .noHash e => { p1 with error_message := some e }
    | .exn e =>
      if p.max_retries ≤ p.retry_count + 1 then
        { p1 with error_message := some e, status := .failed }
      else
        { p1 with error_message := some e }

/-- A whole lifecycle of broadcast attempts (initial attempt plus retry
sweeps) applied to a payout document. -/
def runBroadcasts (os : List BroadcastOutcome) (p : Payout) : Payout :=
  os.foldl (fun q o => broadcast_payout o q) p

/-- The selection predicate of `PayoutRepository.get_failed_payouts`:
`status ∈ {pending, failed}` and `retry_count < max_retries`; only payouts
matching it are ever retried by `retry_failed_payouts`. -/
def get_failed_payouts_filter (p : Payout) : Bool :=
  (p.status == .pending || p.status == .failed) &&
    p.retry_count < p.max_retries

/-! ## Vault wallets and UTXO selection (`PayoutService._send_bitcoin`) -/

/-- A vault wallet document (the fields the settlement pipeline touches). -/
structure Wallet where
  address : String
  multiplier : Nat
  chance : Option ℚ
  total_received : ℤ
  total_sent : ℤ
  bet_count : Nat
  is_depleted : Bool
  deriving Repr, DecidableEq

structure Utxo where
  txid : String
  vout : Nat
  value : ℤ
  deriving Repr, DecidableEq

/-- Result of the UTXO-selection stage of `PayoutService._send_bitcoin`. -/
inductive UtxoSelection where
  | depleted
  | single (u : Utxo)
  | all (us : List Utxo)
  | insufficient (needed available : ℤ)
  deriving Repr, DecidableEq

/-- The UTXO-selection stage of `PayoutService._send_bitcoin`: an empty UTXO
list marks the vault depleted and raises a retryable
`InsufficientFundsException`; otherwise the first single UTXO covering
`amount + fee_buffer` is used, else all UTXOs when their total covers it,
else an insufficient-funds error is raised. -/
def send_bitcoin_select_utxos (w : Wallet) (utxos : List Utxo)
    (amount_satoshis fee_buffer : ℤ) : Wallet × UtxoSelection :=
  if utxos.isEmpty then ({ w with is_depleted := true }, .depleted)
  else
    match utxos.find? (fun u => amount_satoshis + fee_buffer ≤ u.value) with
    | some u => (w, .single u)
    | none =>
      let total := (utxos.map (fun u => u.value)).sum
      if amount_satoshis + fee_buffer ≤ total then (w, .all utxos)
      else (w, .insufficient (amount_satoshis + fee_buffer) total)

/-! ## Bet-number counter (`app/utils/counter.py`) -/

/-- The state the counter utility reads and writes: the `bet_number` counter
document (if any) and the `bet_number` fields of the existing bets. -/
structure CounterState where
  seq : Option Nat
  betNumbers : List Nat
  deriving Repr, DecidableEq

/-- `get_next_bet_number`. `dbError` models `find_one_and_update` raising,
`fallbackError` models the fallback query over the bets collection raising as
well; both are environment inputs. The happy path is the atomic
fetch-and-increment; the first fallback initialises the counter from the
largest stored bet number; the last resort returns `1` without touching the
counter. -/
def get_next_bet_number (dbError fallbackError : Bool) (st : CounterState) :
    Nat × CounterState :=
  if !dbError then
    let newSeq := st.seq.getD 0 + 1
    (newSeq, { st with seq := some newSeq })
  else if !fallbackError then
    match st.betNumbers.max? with
    | some m => (m + 1, { st with seq := some (m + 1) })
    | none => (1, st)
  else
    (1, st)

/-- One bet creation as seen by the counter: draw the next bet number and
insert a bet carrying it (`BetService.process_detected_transaction` steps 7–9). -/
def assign_bet_number (dbError fallbackError : Bool) (st : CounterState) :
    Nat × CounterState :=
  let r := get_next_bet_number dbError fallbackError st
  (r.1, { r.2 with betNumbers := r.2.betNumbers ++ [r.1] })

/-- The bet numbers handed out by `k` successive error-free bet creations. -/
def assign_run : Nat → CounterState → List Nat
  | 0, _ => []
  | k + 1, st =>
    (assign_bet_number false false st).1 ::
      assign_run k (assign_bet_number false false st).2

/-! ## Bet materializer (`BetService`) -/

inductive BetStatus where
  | pending
  | confirmed
  | rolled
  | paid
  | failed
  deriving Repr, DecidableEq

/-- A user document. -/
structure UserRec where
  address : String
  total_bets : Nat
  total_wagered : ℤ
  total_won : ℤ
  total_lost : ℤ
  deriving Repr, DecidableEq

/-- A user-seed document; seed object ids are modelled by the owning user's
address (there is one active seed per user). -/
structure UserSeed where
  user_address : String
  client_seed : String
  nonce : Nat
  is_active : Bool
  deriving Repr, DecidableEq

/-- A daily server-seed document; object ids are modelled by the (unique)
`seed_date`. -/
structure ServerSeedDoc where
  server_seed : String
  server_seed_hash : String
  seed_date : String
  bet_count : Nat
  deriving Repr, DecidableEq

/-- A detected-transaction document (the fields the bet pipeline reads). -/
structure DetectedTx where
  txid : String
  from_address : String
  to_address : String
  amount : ℤ
  confirmations : Nat
  is_processed : Bool
  bet_id : Option Nat
  deriving Repr, DecidableEq

/-- A bet document. -/
structure Bet where
  bet_number : Nat
  user_address : String
  server_seed : String
  server_seed_hash : String
  client_seed : String
  bet_amount : ℤ
  target_multiplier : ℚ
  multiplier : Nat
  target_address : String
  win_chance : ℚ
  nonce : Nat
  roll_result : Option ℚ
  is_win : Option Bool
  payout_amount : Option ℤ
  profit : Option ℤ
  deposit_txid : String
  payout_txid : Option String
  status : BetStatus
  deriving Repr, DecidableEq

/-- A message published on the websocket manager (the Event Bus). -/
inductive Event where
  | seedHashUpdate (server_seed_hash seed_date : String)
  | newBet (bet_number : Nat) (payout_txid : Option String)
      (is_win : Option Bool) (status : BetStatus)
  deriving Repr, DecidableEq

/-- The document-store state the bet pipeline reads and writes, plus the
published events and the spawned payout-broadcast tasks. -/
structure DBState where
  bets : List Bet
  txs : List DetectedTx
  users : List UserRec
  userSeeds : List UserSeed
  serverSeeds : List ServerSeedDoc
  counterSeq : Option Nat
  wallets : List Wallet
  payouts : List Payout
  pendingBroadcasts : List Nat
  events : List Event
  today : String
  deriving Repr, DecidableEq

/-- `BetRepository.get_by_deposit_txid`. -/
def findBetByTxid (bets : List Bet) (txid : String) : Option Bet :=
  bets.find? (fun b => b.deposit_txid == txid)

/-- `TransactionRepository.mark_processed` (`bet_id` is set only when one is
passed). -/
def markTxProcessed (txs : List DetectedTx) (txid : String)
    (betId : Option Nat) : List DetectedTx :=
  txs.map fun t =>
    if t.txid == txid then
      { t with
        is_processed := true,
        bet_id := (match betId with
          | some i => some i
          | none => t.bet_id) }
    else t

/-- `UserRepository.get_or_create`. -/
def getOrCreateUser (users : List UserRec) (addr : String) :
    UserRec × List UserRec :=
  match users.find? (fun u => u.address == addr) with
  | some u => (u, users)
  | none =>
    let u : UserRec :=
      { address := addr, total_bets := 0, total_wagered := 0, total_won := 0,
        total_lost := 0 }
    (u, users ++ [u])

/-- `WalletService.get_wallet_by_address`. -/
def findWalletByAddress (ws : List Wallet) (addr : String) : Option Wallet :=
  ws.find? (fun w => w.address == addr)

/-- The user-seed lookup/creation step of
`BetService.process_detected_transaction` (client_seed = user address,
nonce starts at 0). -/
def getOrCreateUserSeed (seeds : List UserSeed) (userAddr : String) :
    UserSeed × List UserSeed :=
  match seeds.find? (fun s => s.user_address == userAddr && s.is_active) with
  | some s => (s, seeds)
  | none =>
    let s : UserSeed :=
      { user_address := userAddr, client_seed := userAddr, nonce := 0,
        is_active := true }
    (s, seeds ++ [s])

/-- `ServerSeedService.get_today_server_seed`: return today's seed, creating
it from fresh entropy (the `entropy` argument models `secrets.token_hex`) with
`bet_count = 0` when absent. -/
def ensureTodayServerSeed (seeds : List ServerSeedDoc) (today entropy : String) :
    ServerSeedDoc × List ServerSeedDoc :=
  match seeds.find? (fun d => d.seed_date == today) with
  | some d => (d, seeds)
  | none =>
    let d : ServerSeedDoc :=
      { server_seed := entropy, server_seed_hash := hash_seed entropy,
        seed_date := today, bet_count := 0 }
    (d, seeds ++ [d])

/-- `ServerSeedService.increment_bet_count` (a DB-side `$inc`; the caller's
in-memory document is not refreshed). -/
def incSeedBetCount (seeds : List ServerSeedDoc) (today : String) :
    List ServerSeedDoc :=
  seeds.map fun d =>
    if d.seed_date == today then { d with bet_count := d.bet_count + 1 } else d

/-- Update the bet with the given number. -/
def updateBet (bets : List Bet) (n : Nat) (f : Bet → Bet) : List Bet :=
  bets.map fun b => if b.bet_number == n then f b else b

/-- `WalletService.record_transaction` for a deposit: `total_received` grows
by the amount and `bet_count` by one when the amount is positive. -/
def recordReceived (ws : List Wallet) (addr : String) (amount : ℤ) :
    List Wallet :=
  ws.map fun w =>
    if w.address == addr then
      { w with
        total_received := w.total_received + amount,
        bet_count := w.bet_count + (if 0 < amount then 1 else 0) }
    else w

/-- `UserRepository.update_stats`. -/
def updateUserStats (users : List UserRec) (addr : String)
    (bet_amount profit : ℤ) (is_win : Bool) : List UserRec :=
  users.map fun u =>
    if u.address == addr then
      { u with
        total_bets := u.total_bets + 1,
        total_wagered := u.total_wagered + bet_amount,
        total_won := u.total_won + (if is_win then profit else 0),
        total_lost := u.total_lost + (if is_win then 0 else |profit|) }
    else u

/-- `PayoutService._is_eligible_for_payout` on the in-memory bet dict. -/
def eligible_for_payout (cfg : Config) (st : DBState) (b : Bet) : Bool :=
  (b.is_win == some true) &&
  (match b.payout_amount with
   | some p => decide (0 < p)
   | none => false) &&
  (b.status == .confirmed || b.status == .rolled) &&
  (if 0 < cfg.MIN_CONFIRMATIONS_PAYOUT then
    match st.txs.find? (fun t => t.txid == b.deposit_txid) with
    | some t => decide (cfg.MIN_CONFIRMATIONS_PAYOUT ≤ t.confirmations)
    | none => true
  else true)

/-- `PayoutService.process_winning_bet`: eligibility gate, payout-per-bet
idempotency, recipient selection, payout insert, and the spawn of the
detached `_async_broadcast_and_update` task (recorded in
`pendingBroadcasts`). The returned document still has `txid = none`; the
broadcast happens in the spawned task. -/
def process_winning_bet (cfg : Config) (st : DBState) (b : Bet) :
    Option Payout × DBState :=
  if !(eligible_for_payout cfg st b) then (none, st)
  else
    match st.payouts.find? (fun p => p.bet_number == b.bet_number) with
    | some p => (some p, st)
    | none =>
      let recipient :=
        match st.txs.find? (fun t => t.txid == b.deposit_txid) with
        | some t => t.from_address
        | none => b.user_address
      let p := newPayout b.bet_number (b.payout_amount.getD 0) recipient
      (some p,
        { st with
          payouts := st.payouts ++ [p],
          pendingBroadcasts := st.pendingBroadcasts ++ [b.bet_number] })

/-- `BetService.roll_and_payout_bet`, restricted to the effects the calling
task performs synchronously (the spawned broadcast task is recorded in
`pendingBroadcasts`; its own steps are the trace model below). The server
seed is read from the bet snapshot, as stored at creation. -/
def roll_and_payout_bet (cfg : Config) (st : DBState) (b : Bet) :
    Option Bet × DBState :=
  if b.roll_result.isSome then (some b, st)
  else
    match st.userSeeds.find? (fun s => s.user_address == b.user_address) with
    | none => (none, st)
    | some user_seed =>
      let result := create_bet_result b.server_seed user_seed.client_seed
        b.nonce b.bet_amount b.target_multiplier b.win_chance
      let setRoll : Bet → Bet := fun bb =>
        { bb with
          roll_result := some result.roll,
          is_win := some result.is_win,
          payout_amount := some result.payout,
          profit := some result.profit,
          status := .rolled }
      let st1 := { st with
        bets := updateBet st.bets b.bet_number setRoll,
        userSeeds := st.userSeeds.map (fun s =>
          if s.user_address == b.user_address then { s with nonce := s.nonce + 1 }
          else s),
        users := updateUserStats st.users b.user_address b.bet_amount
          result.profit result.is_win }
      let b1 := setRoll b
      let st2 :=
        if result.is_win && decide (0 < result.payout) then
          let r := process_winning_bet cfg st1 b1
          match r.1 with
          | some p =>
            if p.txid.isSome then
              { r.2 with
                bets := updateBet r.2.bets b.bet_number
                  (fun bb => { bb with payout_txid := p.txid }) }
            else r.2
          | none => r.2
        else
          { st1 with
            bets := updateBet st1.bets b.bet_number
              (fun bb => { bb with status := .paid }) }
      let updated :=
        (st2.bets.find? (fun bb => bb.bet_number == b.bet_number)).getD b1
      let st3 := { st2 with
        events := st2.events ++
          [.newBet updated.bet_number updated.payout_txid updated.is_win
            updated.status] }
      (some updated, st3)

/-- `BetService.process_detected_transaction`: deduplication by deposit txid,
user/seed resolution, daily-seed resolution with the (stale) first-bet
broadcast check, parameter validation, bet-number assignment, bet insert,
transaction attach, vault stats, and the immediate roll when confirmations
suffice. `entropy` models the randomness drawn if today's server seed must be
created. -/
def process_detected_transaction (cfg : Config) (entropy : String)
    (st : DBState) (tx : DetectedTx) : Option Bet × DBState :=
  match findBetByTxid st.bets tx.txid with
  | some existing =>
    if !tx.is_processed then
      (some existing,
        { st with
          txs := markTxProcessed st.txs tx.txid (some existing.bet_number) })
    else (some existing, st)
  | none =>
    if tx.is_processed then (none, st)
    else
      let ru := getOrCreateUser st.users tx.from_address
      let user := ru.1
      let st := { st with users := ru.2 }
      match findWalletByAddress st.wallets tx.to_address with
      | none => (none, st)
      | some wallet =>
        let multiplier_int := wallet.multiplier
        let multiplier_float : ℚ := multiplier_int
        let rs := getOrCreateUserSeed st.userSeeds user.address
        let user_seed := rs.1
        let st := { st with userSeeds := rs.2 }
        let rss := ensureTodayServerSeed st.serverSeeds st.today entropy
        let server_seed_doc := rss.1
        let st := { st with serverSeeds := incSeedBetCount rss.2 st.today }
        let st :=
          if server_seed_doc.bet_count == 1 then
            { st with
              events := st.events ++
                [.seedHashUpdate server_seed_doc.server_seed_hash
                  server_seed_doc.seed_date] }
          else st
        if !(validate_bet_params cfg tx.amount multiplier_float) then
          (none, { st with txs := markTxProcessed st.txs tx.txid none })
        else
          let chance :=
            match wallet.chance with
            | some c => c
            | none => calculate_win_chance cfg multiplier_float
          let bet_number := st.counterSeq.getD 0 + 1
          let st := { st with counterSeq := some bet_number }
          let bet : Bet :=
            { bet_number := bet_number, user_address := user.address,
              server_seed := server_seed_doc.server_seed,
              server_seed_hash := server_seed_doc.server_seed_hash,
              client_seed := user_seed.client_seed,
              bet_amount := tx.amount,
              target_multiplier := multiplier_float,
              multiplier := multiplier_int,
              target_address := tx.to_address,
              win_chance := chance, nonce := user_seed.nonce,
              roll_result := none, is_win := none, payout_amount := none,
              profit := none, deposit_txid := tx.txid, payout_txid := none,
              status := .pending }
          let st := { st with bets := st.bets ++ [bet] }
          let st := { st with
            txs := markTxProcessed st.txs tx.txid (some bet_number) }
          let st := { st with
            wallets := recordReceived st.wallets wallet.address tx.amount }
          if cfg.MIN_CONFIRMATIONS_PAYOUT ≤ tx.confirmations then
            roll_and_payout_bet cfg st bet
          else (some bet, st)

/-! ## Trace model of the winning-bet publish/payout interleaving

`PayoutService.process_winning_bet` spawns `_async_broadcast_and_update` as a
detached `asyncio` task and returns the freshly inserted payout document
(whose `txid` is still null); `BetService.roll_and_payout_bet` then re-reads
the bet and publishes the `BetResult` event, while the spawned task
broadcasts the transaction, persists the payout `txid`, and marks the bet
paid. The two instruction streams interleave at await points. -/

namespace PayoutFlow

/-- The shared state the two tasks touch for one winning bet. -/
structure S where
  payoutTxid : Option String
  payoutStatus : PayoutStatus
  betPayoutTxid : Option String
  betStatus : BetStatus
  published : List (Option String)
  deriving Repr, DecidableEq

/-- Initial state: the bet has just been rolled as a win; no payout yet. -/
def s0 : S where
  payoutTxid := none
  payoutStatus := .pending
  betPayoutTxid := none
  betStatus := .rolled
  published := []

/-- Atomic actions of the two tasks. -/
inductive Act where
  | createPayout
  | setBetTxidFromSnapshot
  | readBetAndPublish
  | broadcastAndPersistTxid (t : String)
  | setBetPaid
  deriving Repr, DecidableEq

/-- Effect of one action. `setBetTxidFromSnapshot` guards on the returned
payout document's snapshot, whose `txid` is null at creation, so it never
writes; `readBetAndPublish` publishes the bet's current `payout_txid`. -/
def step (s : S) (a : Act) : S :=
  match a with
  | .createPayout => { s with payoutStatus := .pending, payoutTxid := none }
  | .setBetTxidFromSnapshot => s
  | .readBetAndPublish => { s with published := s.published ++ [s.betPayoutTxid] }
  | .broadcastAndPersistTxid t =>
    { s with payoutTxid := some t, payoutStatus := .broadcast }
  | .setBetPaid => { s with betStatus := .paid }

/-- The calling task's actions after a winning roll
(`roll_and_payout_bet` lines 281–344). -/
def mainActs : List Act :=
  [.createPayout, .setBetTxidFromSnapshot, .readBetAndPublish]

/-- The detached `_async_broadcast_and_update` task's actions. -/
def bgActs (t : String) : List Act :=
  [.broadcastAndPersistTxid t, .setBetPaid]

/-- Interleavings of two action sequences. -/
inductive Interleave : List Act → List Act → List Act → Prop where
  | nil : Interleave [] [] []
  | left {x : Act} {xs ys zs : List Act} :
      Interleave xs ys zs → Interleave (x :: xs) ys (x :: zs)
  | right {y : Act} {xs ys zs : List Act} :
      Interleave xs ys zs → Interleave xs (y :: ys) (y :: zs)

/-- Execute a trace. -/
def run (tr : List Act) : S := tr.foldl step s0

end PayoutFlow

/-! ## Concrete fixtures used to instantiate the theorems -/

/-- Recognises a `SeedHashUpdate` event. -/
def isSeedHashUpdateEvent : Event → Bool
  | .seedHashUpdate _ _ => true
  | _ => false

/-- Default configuration with a one-confirmation payout gate (so freshly
detected, unconfirmed deposits stay `pending` rather than rolling at once). -/
def cfgStrict : Config := { defaultConfig with MIN_CONFIRMATIONS_PAYOUT := 1 }

/-- A 2× vault wallet with 49.5 % chance. -/
def wVault : Wallet where
  address := "VAULT2"
  multiplier := 2
  chance := some (mkRat 99 2)
  total_received := 0
  total_sent := 0
  bet_count := 0
  is_depleted := false

/-- A detected 10000-satoshi deposit to the vault. -/
def txT1 : DetectedTx where
  txid := "T1"
  from_address := "USER1"
  to_address := "VAULT2"
  amount := 10000
  confirmations := 0
  is_processed := false
  bet_id := none

/-- A second deposit from the same user. -/
def txT2 : DetectedTx := { txT1 with txid := "T2" }

/-- A deposit of 100 satoshis, below the 600-satoshi minimum bet. -/
def txT3 : DetectedTx := { txT1 with txid := "T3", amount := 100 }

/-- A fresh store: one vault, three detected transactions, no users, seeds or
bets yet. -/
def stEmpty : DBState where
  bets := []
  txs := [txT1, txT2, txT3]
  users := []
  userSeeds := []
  serverSeeds := []
  counterSeq := none
  wallets := [wVault]
  payouts := []
  pendingBroadcasts := []
  events := []
  today := "2026-10-12"

/-- Today's server seed, already created, with no bets yet. -/
def seedToday : ServerSeedDoc where
  server_seed := "S0"
  server_seed_hash := "H0"
  seed_date := "2026-10-12"
  bet_count := 0

/-- The fresh store with today's seed already present. -/
def stSeeded : DBState := { stEmpty with serverSeeds := [seedToday] }

/-- A pending bet already materialised from deposit `T1`. -/
def betB : Bet where
  bet_number := 1
  user_address := "USER1"
  server_seed := "S0"
  server_seed_hash := "H0"
  client_seed := "USER1"
  bet_amount := 10000
  target_multiplier := 2
  multiplier := 2
  target_address := "VAULT2"
  win_chance := mkRat 99 2
  nonce := 0
  roll_result := none
  is_win := none
  payout_amount := none
  profit := none
  deposit_txid := "T1"
  payout_txid := none
  status := .pending

/-- The seeded store holding `betB`. -/
def stWithBet : DBState := { stSeeded with bets := [betB] }

/-! ## Supporting lemmas on hex digests and rounding -/

lemma toBytesBE_mem_lt : ∀ (n v : Nat), ∀ x ∈ toBytesBE n v, x < 256 := by
  intro n
  induction n with
  | zero => intro v x hx; simp [toBytesBE] at hx
  | succ m ih =>
    intro v x hx
    simp only [toBytesBE, List.mem_append, List.mem_singleton] at hx
    rcases hx with hx | hx
    · exact ih _ x hx
    · subst hx; exact Nat.mod_lt _ (by norm_num)

lemma sha512Bytes_mem_lt (msg : List Nat) :
    ∀ x ∈ SHA512.sha512Bytes msg, x < 256 := by
  intro x hx
  simp only [SHA512.sha512Bytes, List.mem_flatten, List.mem_map] at hx
  obtain ⟨l, ⟨w, _, hw⟩, hxl⟩ := hx
  exact toBytesBE_mem_lt 8 w x (hw ▸ hxl)

lemma hexVal_hexChar (n : Nat) (h : n < 16) : hexVal (hexChar n) = n := by
  interval_cases n <;> decide

lemma hexdigest_data_hexVal_lt (bytes : List Nat) (hb : ∀ b ∈ bytes, b < 256) :
    ∀ c ∈ (hexdigest bytes).data, hexVal c < 16 := by
  intro c hc
  have hc' : c ∈ List.flatten (bytes.map byteToHex) := hc
  simp only [List.mem_flatten, List.mem_map] at hc'
  obtain ⟨l, ⟨b, hbmem, hbl⟩, hcl⟩ := hc'
  have hblt : b < 256 := hb b hbmem
  subst hbl
  simp only [byteToHex, List.mem_cons, List.mem_singleton, List.not_mem_nil,
    or_false] at hcl
  rcases hcl with hcl | hcl <;> subst hcl
  · have : b / 16 < 16 := Nat.div_lt_of_lt_mul (by omega)
    rw [hexVal_hexChar _ this]; exact this
  · have : b % 16 < 16 := Nat.mod_lt _ (by norm_num)
    rw [hexVal_hexChar _ this]; exact this

lemma parseHexNat_foldl_lt :
    ∀ (l : List Char) (a B : Nat), (∀ c ∈ l, hexVal c < 16) → a < B →
      l.foldl (fun a c => 16 * a + hexVal c) a < B * 16 ^ l.length := by
  intro l
  induction l with
  | nil => intro a B _ ha; simpa using ha
  | cons c l ih =>
    intro a B hl ha
    have hc : hexVal c < 16 := hl c (List.mem_cons_self c l)
    have hstep : 16 * a + hexVal c < 16 * B := by omega
    have := ih (16 * a + hexVal c) (16 * B)
      (fun d hd => hl d (List.mem_cons_of_mem _ hd)) hstep
    calc (c :: l).foldl (fun a c => 16 * a + hexVal c) a
        = l.foldl (fun a c => 16 * a + hexVal c) (16 * a + hexVal c) := rfl
      _ < 16 * B * 16 ^ l.length := this
      _ = B * 16 ^ (c :: l).length := by rw [List.length_cons]; ring

lemma parseHexNat_lt (l : List Char) (hl : ∀ c ∈ l, hexVal c < 16) :
    parseHexNat l < 16 ^ l.length :=
  by simpa [parseHexNat] using parseHexNat_foldl_lt l 0 1 hl one_pos

lemma round2_natDiv100 (k : Nat) : round2 ((k : ℚ) / 100) = (k : ℚ) / 100 := by
  unfold round2
  have h1 : (k : ℚ) / 100 * 100 = (k : ℚ) := by
    field_simp
  rw [h1]
  have h2 : ⌊(k : ℚ) + 1 / 2⌋ = (k : ℤ) := by
    rw [show ((k : ℚ) + 1 / 2) = ((k : ℤ) : ℚ) + 1 / 2 by push_cast; ring,
      Int.floor_int_add]
    have : ⌊(1 / 2 : ℚ)⌋ = 0 := by
      rw [Int.floor_eq_zero_iff]
      constructor <;> norm_num
    omega
  rw [h2]
  push_cast
  ring

/-- The four bytes behind the first 8 hex characters of a SHA-512-based digest
give an integer below `2 ^ 32`. -/
lemma parseHexNat_take8_lt (bytes : List Nat) (hb : ∀ b ∈ bytes, b < 256) :
    parseHexNat ((hexdigest bytes).data.take 8) < 2 ^ 32 := by
  have hmem : ∀ c ∈ (hexdigest bytes).data.take 8, hexVal c < 16 :=
    fun c hc => hexdigest_data_hexVal_lt bytes hb c (List.mem_of_mem_take hc)
  have hlen : ((hexdigest bytes).data.take 8).length ≤ 8 :=
    le_trans (List.length_take_le _ _) le_rfl
  calc parseHexNat ((hexdigest bytes).data.take 8)
      < 16 ^ ((hexdigest bytes).data.take 8).length :=
        parseHexNat_lt _ hmem
    _ ≤ 16 ^ 8 := Nat.pow_le_pow_right (by norm_num) hlen
    _ = 2 ^ 32 := by norm_num

/-! ## C1: `calculate_roll` computes the spec formula and stays in range -/

/-- C1. For every server seed, client seed and nonce, `calculate_roll` equals
the spec's formula (HMAC-SHA-512 keyed by the server seed over
`"{client_seed}:{nonce}"`, first 8 hex characters as an unsigned 32-bit
integer `n`, then `(n mod 10000) / 100` rounded to two decimals); being a pure
function of its inputs it is deterministic, and its value always lies in
`[0, 99.99]`. -/
theorem calculate_roll_matches_spec_and_in_range
    (server_seed client_seed : String) (nonce : Nat) :
    calculate_roll server_seed client_seed nonce =
      specRoll server_seed client_seed nonce ∧
    0 ≤ calculate_roll server_seed client_seed nonce ∧
    calculate_roll server_seed client_seed nonce ≤ 9999 / 100 := by
  have hbytes : ∀ b ∈ hmacSha512 (strBytes server_seed)
      (strBytes (client_seed ++ ":" ++ toString nonce)), b < 256 :=
    sha512Bytes_mem_lt _
  have hlt := parseHexNat_take8_lt _ hbytes
  refine ⟨?_, ?_, ?_⟩
  · simp only [calculate_roll, specRoll]
    rw [Nat.mod_eq_of_lt hlt]
  · simp only [calculate_roll]
    rw [round2_natDiv100]
    positivity
  · simp only [calculate_roll]
    rw [round2_natDiv100]
    have h : (parseHexNat (((hexdigest (hmacSha512 (strBytes server_seed)
        (strBytes (client_seed ++ ":" ++ toString nonce)))).data).take 8)) %
        10000 ≤ 9999 := by
      have := Nat.mod_lt (parseHexNat (((hexdigest (hmacSha512
        (strBytes server_seed)
        (strBytes (client_seed ++ ":" ++ toString nonce)))).data).take 8))
        (show 0 < 10000 by norm_num)
      omega
    have hq : ((parseHexNat (((hexdigest (hmacSha512 (strBytes server_seed)
        (strBytes (client_seed ++ ":" ++ toString nonce)))).data).take 8) %
        10000 : Nat) : ℚ) ≤ 9999 := by
      exact_mod_cast h
    linarith

/-! ## C2: win predicate and payout arithmetic of `create_bet_result` -/

/-- C2. In `create_bet_result` (the single routine that settles a bet in
`BetService.roll_and_payout_bet`), `is_win` holds exactly when the roll is
below the provided `chance` (snapshotted from the vault wallet); a win pays
`⌊bet_amount * multiplier⌋` with `profit = payout − bet_amount`, and a loss
pays `0` with `profit = −bet_amount`. -/
theorem create_bet_result_win_and_payout
    (server_seed client_seed : String) (nonce : Nat)
    (bet_amount : ℤ) (multiplier chance : ℚ)
    (hamt : 0 ≤ bet_amount) (hmul : 0 ≤ multiplier) :
    (create_bet_result server_seed client_seed nonce bet_amount multiplier
        chance).win_chance = chance ∧
    ((create_bet_result server_seed client_seed nonce bet_amount multiplier
        chance).is_win = true ↔
      (create_bet_result server_seed client_seed nonce bet_amount multiplier
        chance).roll < chance) ∧
    ((create_bet_result server_seed client_seed nonce bet_amount multiplier
        chance).is_win = true →
      (create_bet_result server_seed client_seed nonce bet_amount multiplier
        chance).payout = ⌊(bet_amount : ℚ) * multiplier⌋ ∧
      (create_bet_result server_seed client_seed nonce bet_amount multiplier
        chance).profit =
        (create_bet_result server_seed client_seed nonce bet_amount multiplier
          chance).payout - bet_amount) ∧
    ((create_bet_result server_seed client_seed nonce bet_amount multiplier
        chance).is_win = false →
      (create_bet_result server_seed client_seed nonce bet_amount multiplier
        chance).payout = 0 ∧
      (create_bet_result server_seed client_seed nonce bet_amount multiplier
        chance).profit = -bet_amount) := by
  have hprod : (0 : ℚ) ≤ (bet_amount : ℚ) * multiplier :=
    mul_nonneg (by exact_mod_cast hamt) hmul
  simp only [create_bet_result, calculate_payout, pyInt]
  by_cases h : calculate_roll server_seed client_seed nonce < chance
  · simp [h, hprod]
  · simp [h, hprod]

/-- Witness for C2 at the scenario-S1 inputs (10000 satoshis on the 2× vault
with 49.5 % chance). -/
theorem create_bet_result_win_and_payout_witness :
    ((0 : ℤ) ≤ 10000 ∧ (0 : ℚ) ≤ 2) ∧
    ((create_bet_result "0xSS" "tb1qUSER" 0 10000 2 (99 / 2)).win_chance =
        99 / 2 ∧
      ((create_bet_result "0xSS" "tb1qUSER" 0 10000 2 (99 / 2)).is_win =
          true ↔
        (create_bet_result "0xSS" "tb1qUSER" 0 10000 2 (99 / 2)).roll <
          99 / 2) ∧
      ((create_bet_result "0xSS" "tb1qUSER" 0 10000 2 (99 / 2)).is_win =
          true →
        (create_bet_result "0xSS" "tb1qUSER" 0 10000 2 (99 / 2)).payout =
          ⌊((10000 : ℤ) : ℚ) * 2⌋ ∧
        (create_bet_result "0xSS" "tb1qUSER" 0 10000 2 (99 / 2)).profit =
          (create_bet_result "0xSS" "tb1qUSER" 0 10000 2 (99 / 2)).payout -
            10000) ∧
      ((create_bet_result "0xSS" "tb1qUSER" 0 10000 2 (99 / 2)).is_win =
          false →
        (create_bet_result "0xSS" "tb1qUSER" 0 10000 2 (99 / 2)).payout = 0 ∧
        (create_bet_result "0xSS" "tb1qUSER" 0 10000 2 (99 / 2)).profit =
          -10000)) :=
  ⟨⟨by decide, zero_le_two⟩,
    create_bet_result_win_and_payout "0xSS" "tb1qUSER" 0 10000 2 (99 / 2)
      (by decide) zero_le_two⟩

/-! ## C10: `verify_roll` is tolerance-based, not exact -/

/-- C10. `verify_roll` accepts a claimed roll exactly when its absolute
distance from the recomputed roll is strictly below `0.01`; in particular the
true roll plus `0.005` is accepted although it differs from the true roll, so
public verification is tolerance-based rather than exact. -/
theorem verify_roll_tolerance_based
    (server_seed client_seed : String) (nonce : Nat) (claimed_roll : ℚ) :
    (verify_roll server_seed client_seed nonce claimed_roll = true ↔
      |calculate_roll server_seed client_seed nonce - claimed_roll| <
        1 / 100) ∧
    verify_roll server_seed client_seed nonce
      (calculate_roll server_seed client_seed nonce + 1 / 200) = true ∧
    calculate_roll server_seed client_seed nonce + 1 / 200 ≠
      calculate_roll server_seed client_seed nonce := by
  refine ⟨by simp [verify_roll], ?_, ?_⟩
  · simp only [verify_roll, decide_eq_true_eq]
    have : calculate_roll server_seed client_seed nonce -
        (calculate_roll server_seed client_seed nonce + 1 / 200) =
        -(1 / 200) := by ring
    rw [this, abs_neg]
    rw [abs_of_pos (by norm_num)]
    norm_num
  · exact (lt_add_of_pos_right _ (by norm_num)).ne'

/-! ## C6: bounded payout retries -/

lemma broadcast_payout_retry_le (o : BroadcastOutcome) (p : Payout)
    (h : p.retry_count ≤ p.max_retries) :
    (broadcast_payout o p).retry_count ≤ p.max_retries ∧
    (broadcast_payout o p).max_retries = p.max_retries := by
  unfold broadcast_payout
  by_cases hge : p.max_retries ≤ p.retry_count
  · rw [if_pos hge]; exact ⟨h, rfl⟩
  · rw [if_neg hge]
    have hlt : p.retry_count < p.max_retries := Nat.lt_of_not_le hge
    cases o with
    | success t fee => exact ⟨hlt, rfl⟩
    | noHash e => exact ⟨hlt, rfl⟩
    | exn e =>
      by_cases h2 : p.max_retries ≤ p.retry_count + 1
      · exact ⟨by simp only [if_pos h2]; exact hlt, by simp only [if_pos h2]⟩
      · exact ⟨by simp only [if_neg h2]; exact hlt, by simp only [if_neg h2]⟩

lemma runBroadcasts_retry_le (os : List BroadcastOutcome) :
    ∀ p : Payout, p.retry_count ≤ p.max_retries →
      (runBroadcasts os p).retry_count ≤ (runBroadcasts os p).max_retries ∧
      (runBroadcasts os p).max_retries = p.max_retries := by
  induction os with
  | nil => intro p h; exact ⟨h, rfl⟩
  | cons o os ih =>
    intro p h
    have hstep := broadcast_payout_retry_le o p h
    have : runBroadcasts (o :: os) p = runBroadcasts os (broadcast_payout o p) :=
      rfl
    rw [this]
    have := ih (broadcast_payout o p) (hstep.2 ▸ hstep.1)
    exact ⟨this.1, this.2.trans hstep.2⟩

/-- C6 counterexample: exhaustion does not always transition the payout to
`failed`. A payout whose three attempts each end with a broadcast response
lacking a tx hash (the non-exception failure path of `_broadcast_payout`)
ends with `retry_count = max_retries` and status still `pending`; the
retry sweeper's selection predicate (`retry_count < max_retries`) excludes
it, so no further attempt ever runs and it never reaches `failed`. -/
theorem payout_exhausted_without_failed_status :
    (runBroadcasts [.noHash "e1", .noHash "e2", .noHash "e3"]
      (newPayout 1 20000 "USER1")).retry_count =
      (runBroadcasts [.noHash "e1", .noHash "e2", .noHash "e3"]
        (newPayout 1 20000 "USER1")).max_retries ∧
    (runBroadcasts [.noHash "e1", .noHash "e2", .noHash "e3"]
      (newPayout 1 20000 "USER1")).status = .pending ∧
    (runBroadcasts [.noHash "e1", .noHash "e2", .noHash "e3"]
      (newPayout 1 20000 "USER1")).status ≠ .failed ∧
    get_failed_payouts_filter
      (runBroadcasts [.noHash "e1", .noHash "e2", .noHash "e3"]
        (newPayout 1 20000 "USER1")) = false := by
  decide

/-- C6 (amended). Along any lifecycle of broadcast attempts, a payout's
`retry_count` never exceeds its `max_retries`; and a further attempt on an
already-exhausted payout only transitions it to `failed` without
incrementing `retry_count` (the guard in `_broadcast_payout` runs before the
increment). Exhaustion itself, however, yields status `failed` only through
the exception path or a further attempt — not when the final attempt fails
with a hash-less broadcast response. -/
theorem payout_retry_count_never_exceeds_max (os : List BroadcastOutcome)
    (p : Payout) (h : p.retry_count ≤ p.max_retries) :
    (runBroadcasts os p).retry_count ≤ (runBroadcasts os p).max_retries ∧
    (runBroadcasts os p).max_retries = p.max_retries ∧
    (∀ (o : BroadcastOutcome) (q : Payout), q.max_retries ≤ q.retry_count →
      broadcast_payout o q =
        { q with
          status := .failed,
          error_message := some "Max retries exceeded" }) := by
  refine ⟨(runBroadcasts_retry_le os p h).1, (runBroadcasts_retry_le os p h).2,
    ?_⟩
  intro o q hq
  unfold broadcast_payout
  rw [if_pos hq]

/-- Witness for C6: the payout created by `process_winning_bet`
(`retry_count = 0`, `max_retries = 3`) run through three failing attempts. -/
theorem payout_retry_count_never_exceeds_max_witness :
    (newPayout 1 20000 "USER1").retry_count ≤
      (newPayout 1 20000 "USER1").max_retries ∧
    ((runBroadcasts [.noHash "e1", .exn "e2", .exn "e3", .exn "e4"]
        (newPayout 1 20000 "USER1")).retry_count ≤
      (runBroadcasts [.noHash "e1", .exn "e2", .exn "e3", .exn "e4"]
        (newPayout 1 20000 "USER1")).max_retries ∧
    (runBroadcasts [.noHash "e1", .exn "e2", .exn "e3", .exn "e4"]
        (newPayout 1 20000 "USER1")).max_retries =
      (newPayout 1 20000 "USER1").max_retries ∧
    (∀ (o : BroadcastOutcome) (q : Payout), q.max_retries ≤ q.retry_count →
      broadcast_payout o q =
        { q with
          status := .failed,
          error_message := some "Max retries exceeded" })) :=
  ⟨by decide,
    payout_retry_count_never_exceeds_max
      [.noHash "e1", .exn "e2", .exn "e3", .exn "e4"]
      (newPayout 1 20000 "USER1") (by decide)⟩

/-! ## C7: UTXO selection in `_send_bitcoin` -/

lemma find?_first {α : Type} (p : α → Bool) :
    ∀ (l : List α) (a : α), l.find? p = some a →
      ∃ l₁ l₂, l = l₁ ++ a :: l₂ ∧ ∀ x ∈ l₁, p x = false := by
  intro l
  induction l with
  | nil => intro a h; simp [List.find?] at h
  | cons x xs ih =>
    intro a h
    by_cases hx : p x = true
    · rw [List.find?_cons_of_pos _ hx] at h
      obtain rfl : x = a := by injection h
      exact ⟨[], xs, rfl, by intro y hy; simp at hy⟩
    · rw [List.find?_cons_of_neg _ hx] at h
      obtain ⟨l₁, l₂, heq, hall⟩ := ih a h
      refine ⟨x :: l₁, l₂, by rw [heq]; rfl, ?_⟩
      intro y hy
      rcases List.mem_cons.mp hy with rfl | hy
      · exact Bool.not_eq_true _ ▸ hx
      · exact hall y hy

/-- C7. On each payout build attempt: an empty UTXO list marks the vault
depleted and fails the attempt; otherwise the first single UTXO covering
`payout_amount + fee_buffer` is chosen (everything before it in fetch order
is too small, and such a UTXO is chosen whenever one exists); when no single
UTXO suffices, all UTXOs are used if their total covers the requirement, and
otherwise the attempt fails with an insufficient-funds error. -/
theorem send_bitcoin_utxo_selection (w : Wallet) (utxos : List Utxo)
    (amount fee_buffer : ℤ) :
    (utxos = [] →
      send_bitcoin_select_utxos w utxos amount fee_buffer =
        ({ w with is_depleted := true }, .depleted)) ∧
    (∀ u, (send_bitcoin_select_utxos w utxos amount fee_buffer).2 =
        .single u →
      u ∈ utxos ∧ amount + fee_buffer ≤ u.value ∧
      ∃ l₁ l₂, utxos = l₁ ++ u :: l₂ ∧
        ∀ v ∈ l₁, v.value < amount + fee_buffer) ∧
    ((∃ u ∈ utxos, amount + fee_buffer ≤ u.value) →
      ∃ u, (send_bitcoin_select_utxos w utxos amount fee_buffer).2 =
        .single u) ∧
    (utxos ≠ [] → (∀ u ∈ utxos, u.value < amount + fee_buffer) →
      (amount + fee_buffer ≤ (utxos.map (fun u => u.value)).sum →
        send_bitcoin_select_utxos w utxos amount fee_buffer =
          (w, .all utxos)) ∧
      ((utxos.map (fun u => u.value)).sum < amount + fee_buffer →
        send_bitcoin_select_utxos w utxos amount fee_buffer =
          (w, .insufficient (amount + fee_buffer)
            ((utxos.map (fun u => u.value)).sum)))) := by
  refine ⟨?_, ?_, ?_, ?_⟩
  · rintro rfl
    rfl
  · intro u hu
    unfold send_bitcoin_select_utxos at hu
    by_cases hemp : utxos.isEmpty
    · simp [hemp] at hu
    · simp only [hemp, Bool.false_eq_true, if_false] at hu
      cases hfind : utxos.find? (fun v => decide (amount + fee_buffer ≤ v.value)) with
      | none =>
        rw [hfind] at hu
        by_cases hsum : amount + fee_buffer ≤ (utxos.map (fun u => u.value)).sum <;>
          simp [hsum] at hu
      | some v =>
        rw [hfind] at hu
        have huv : v = u := by simpa using hu
        subst huv
        have hval : amount + fee_buffer ≤ v.value := by
          simpa using List.find?_some hfind
        obtain ⟨l₁, l₂, heq, hall⟩ := find?_first _ _ _ hfind
        refine ⟨List.mem_of_find?_eq_some hfind, hval, l₁, l₂, heq, ?_⟩
        intro x hx
        have := hall x hx
        simp only [decide_eq_false_iff_not, not_le] at this
        exact this
  · rintro ⟨u, hu, hval⟩
    have hne : utxos.isEmpty = false := by
      cases utxos with
      | nil => simp at hu
      | cons a l => rfl
    have hsome : (utxos.find? (fun v => decide (amount + fee_buffer ≤ v.value))).isSome = true := by
      rw [List.find?_isSome]
      exact ⟨u, hu, by simpa using hval⟩
    cases hfind : utxos.find? (fun v => decide (amount + fee_buffer ≤ v.value)) with
    | none => rw [hfind] at hsome; simp at hsome
    | some v =>
      refine ⟨v, ?_⟩
      unfold send_bitcoin_select_utxos
      simp [hne, hfind]
  · intro hne hall
    have hemp : utxos.isEmpty = false := by
      cases utxos with
      | nil => exact absurd rfl hne
      | cons a l => rfl
    have hfind : utxos.find? (fun v => decide (amount + fee_buffer ≤ v.value)) = none := by
      rw [List.find?_eq_none]
      intro x hx
      simp only [decide_eq_true_eq, not_le]
      exact hall x hx
    constructor
    · intro hsum
      unfold send_bitcoin_select_utxos
      simp [hemp, hfind, hsum]
    · intro hsum
      unfold send_bitcoin_select_utxos
      simp [hemp, hfind, not_le.mpr hsum]

/-- Witness for C7: with a 500-satoshi and a 30000-satoshi UTXO and a
requirement of 21000, the second UTXO is the first fit. -/
theorem send_bitcoin_utxo_selection_witness :
    ((⟨"U2", 1, 30000⟩ : Utxo) ∈
        [(⟨"U1", 0, 500⟩ : Utxo), (⟨"U2", 1, 30000⟩ : Utxo)] ∧
      (20000 : ℤ) + 1000 ≤ (⟨"U2", 1, 30000⟩ : Utxo).value ∧
      ∃ l₁ l₂,
        [(⟨"U1", 0, 500⟩ : Utxo), (⟨"U2", 1, 30000⟩ : Utxo)] =
          l₁ ++ (⟨"U2", 1, 30000⟩ : Utxo) :: l₂ ∧
        ∀ v ∈ l₁, v.value < (20000 : ℤ) + 1000) :=
  (send_bitcoin_utxo_selection wVault
    [(⟨"U1", 0, 500⟩ : Utxo), (⟨"U2", 1, 30000⟩ : Utxo)] 20000 1000).2.1
    (⟨"U2", 1, 30000⟩ : Utxo) (by decide)

/-! ## C5: bet numbers and the counter -/

/-- C5 counterexample: bet numbers are not obtained exclusively through the
atomic fetch-and-increment. When `find_one_and_update` raises and the
fallback query over the bets collection raises as well, `get_next_bet_number`
returns the last-resort constant `1`; a bet created after an error-free first
bet then repeats bet number `1`, so bet numbers are neither unique nor
strictly increasing under database errors. -/
theorem bet_number_duplicated_under_db_errors :
    (assign_bet_number false false { seq := none, betNumbers := [] }).1 = 1 ∧
    (assign_bet_number true true
      (assign_bet_number false false { seq := none, betNumbers := [] }).2).1 =
      1 ∧
    ¬ ((assign_bet_number false false { seq := none, betNumbers := [] }).1 <
      (assign_bet_number true true
        (assign_bet_number false false
          { seq := none, betNumbers := [] }).2).1) := by
  decide

/-- C5 (amended): in the absence of database errors every bet number comes
from the atomic fetch-and-increment of the `bet_number` counter, so any run
of `k` bet creations hands out the consecutive numbers `seq+1, seq+2, …`,
which are strictly increasing (hence unique) in creation order. -/
theorem bet_numbers_strictly_increasing_without_db_errors
    (st : CounterState) (k : Nat) :
    assign_run k st = List.range' (st.seq.getD 0 + 1) k ∧
    (assign_run k st).Pairwise (· < ·) := by
  have main : ∀ (k : Nat) (st : CounterState),
      assign_run k st = List.range' (st.seq.getD 0 + 1) k := by
    intro k
    induction k with
    | zero => intro st; rfl
    | succ m ih =>
      intro st
      have h1 : (assign_bet_number false false st).1 = st.seq.getD 0 + 1 := rfl
      have h2 : ((assign_bet_number false false st).2).seq =
          some (st.seq.getD 0 + 1) := rfl
      calc assign_run (m + 1) st
          = (assign_bet_number false false st).1 ::
            assign_run m (assign_bet_number false false st).2 := rfl
        _ = (st.seq.getD 0 + 1) ::
            List.range' ((st.seq.getD 0 + 1) + 1) m := by
            rw [h1, ih, h2]; rfl
        _ = List.range' (st.seq.getD 0 + 1) (m + 1) := by
            rw [List.range'_succ]
  refine ⟨main k st, ?_⟩
  rw [main k st]
  exact List.pairwise_lt_range' _ _

/-! ## C4: idempotent ingestion by deposit txid -/

/-- C4. Processing a detected transaction for a deposit txid that already has
a bet returns that existing bet, marks the detected transaction processed if
it is not already (and otherwise changes nothing), and leaves the bets, user
seeds (nonces), users, server seeds, counter, payouts and events untouched:
no second bet is ever created for a txid and no re-roll happens. -/
theorem process_detected_transaction_dedup (cfg : Config) (entropy : String)
    (st : DBState) (tx : DetectedTx) (b : Bet)
    (h : findBetByTxid st.bets tx.txid = some b) :
    (process_detected_transaction cfg entropy st tx).1 = some b ∧
    (process_detected_transaction cfg entropy st tx).2.bets = st.bets ∧
    (process_detected_transaction cfg entropy st tx).2.userSeeds =
      st.userSeeds ∧
    (process_detected_transaction cfg entropy st tx).2.serverSeeds =
      st.serverSeeds ∧
    (process_detected_transaction cfg entropy st tx).2.users = st.users ∧
    (process_detected_transaction cfg entropy st tx).2.counterSeq =
      st.counterSeq ∧
    (process_detected_transaction cfg entropy st tx).2.payouts = st.payouts ∧
    (process_detected_transaction cfg entropy st tx).2.events = st.events ∧
    (process_detected_transaction cfg entropy st tx).2.txs =
      (if tx.is_processed then st.txs
       else markTxProcessed st.txs tx.txid (some b.bet_number)) := by
  unfold process_detected_transaction
  rw [h]
  cases htx : tx.is_processed with
  | false => simp
  | true => simp

/-- Witness for C4: replaying deposit `T1` on a store already holding its bet
returns that bet and only flips the processed flag. -/
theorem process_detected_transaction_dedup_witness :
    findBetByTxid stWithBet.bets txT1.txid = some betB ∧
    ((process_detected_transaction defaultConfig "E" stWithBet txT1).1 =
        some betB ∧
      (process_detected_transaction defaultConfig "E" stWithBet txT1).2.bets =
        stWithBet.bets ∧
      (process_detected_transaction defaultConfig "E" stWithBet
          txT1).2.userSeeds = stWithBet.userSeeds ∧
      (process_detected_transaction defaultConfig "E" stWithBet
          txT1).2.serverSeeds = stWithBet.serverSeeds ∧
      (process_detected_transaction defaultConfig "E" stWithBet
          txT1).2.users = stWithBet.users ∧
      (process_detected_transaction defaultConfig "E" stWithBet
          txT1).2.counterSeq = stWithBet.counterSeq ∧
      (process_detected_transaction defaultConfig "E" stWithBet
          txT1).2.payouts = stWithBet.payouts ∧
      (process_detected_transaction defaultConfig "E" stWithBet
          txT1).2.events = stWithBet.events ∧
      (process_detected_transaction defaultConfig "E" stWithBet txT1).2.txs =
        (if txT1.is_processed then stWithBet.txs
         else markTxProcessed stWithBet.txs txT1.txid
           (some betB.bet_number))) :=
  ⟨by decide,
    process_detected_transaction_dedup defaultConfig "E" stWithBet txT1 betB
      (by decide)⟩

/-! ## C8: when the `SeedHashUpdate` event is really emitted -/

lemma validate_10000_2x :
    validate_bet_params cfgStrict 10000 ((2 : ℕ) : ℚ) = true := by
  simp only [validate_bet_params, calculate_win_chance, round2, cfgStrict,
    defaultConfig]
  norm_num

/-- Effect of a successful bet creation (no existing bet, wallet found, valid
parameters, not enough confirmations for an immediate roll): one bet is
appended, the daily seed is resolved and its `bet_count` incremented, vault
stats recorded, and the `SeedHashUpdate` emission is guarded by the stale
in-memory `bet_count` of the seed document fetched before the increment. -/
lemma process_creates_bet (cfg : Config) (entropy : String) (st : DBState)
    (tx : DetectedTx) (w : Wallet)
    (hnobet : findBetByTxid st.bets tx.txid = none)
    (hunproc : tx.is_processed = false)
    (hw : findWalletByAddress st.wallets tx.to_address = some w)
    (hvalid : validate_bet_params cfg tx.amount (w.multiplier : ℚ) = true)
    (hconf : ¬ cfg.MIN_CONFIRMATIONS_PAYOUT ≤ tx.confirmations) :
    (∃ b : Bet, (process_detected_transaction cfg entropy st tx).1 = some b ∧
      b.deposit_txid = tx.txid ∧
      (process_detected_transaction cfg entropy st tx).2.bets =
        st.bets ++ [b]) ∧
    (process_detected_transaction cfg entropy st tx).2.serverSeeds =
      incSeedBetCount (ensureTodayServerSeed st.serverSeeds st.today entropy).2
        st.today ∧
    (process_detected_transaction cfg entropy st tx).2.wallets =
      recordReceived st.wallets w.address tx.amount ∧
    (process_detected_transaction cfg entropy st tx).2.events =
      st.events ++
        (if (ensureTodayServerSeed st.serverSeeds st.today entropy).1.bet_count
            == 1 then
          [Event.seedHashUpdate
            (ensureTodayServerSeed st.serverSeeds st.today entropy).1.server_seed_hash
            (ensureTodayServerSeed st.serverSeeds st.today entropy).1.seed_date]
        else []) ∧
    (process_detected_transaction cfg entropy st tx).2.today = st.today := by
  unfold process_detected_transaction
  rw [hnobet, hunproc]
  simp only [Bool.not_false, if_true, hw, hvalid, Bool.not_true, if_false]
  rw [if_neg (by simp)]
  rw [if_neg (by simp)]
  rw [if_neg hconf]
  split <;> exact ⟨⟨_, rfl, rfl, by simp⟩, by simp, by simp, by simp, by simp⟩

/-- C8 (code bug). The broadcast guard compares the stale in-memory
`bet_count` of the server-seed document fetched before the database-side
increment: the first bet of the day — the very bet that creates the new daily
seed — sees `bet_count = 0` and emits no `SeedHashUpdate`, while the second
bet of the day sees `bet_count = 1` and emits it, contradicting the source's
own comment `First bet with today's seed`. -/
theorem seed_hash_update_emitted_on_second_bet_of_day :
    stEmpty.serverSeeds = [] ∧
    ((process_detected_transaction cfgStrict "E1" stEmpty txT1).2.serverSeeds.map
      (fun d => d.bet_count)) = [1] ∧
    ((process_detected_transaction cfgStrict "E1" stEmpty
      txT1).2.events.countP isSeedHashUpdateEvent) = 0 ∧
    ((process_detected_transaction cfgStrict "E2"
      (process_detected_transaction cfgStrict "E1" stEmpty txT1).2
      txT2).2.events.countP isSeedHashUpdateEvent) = 1 := by
  have H1 := process_creates_bet cfgStrict "E1" stEmpty txT1 wVault
    (by decide) (by decide) (by decide) validate_10000_2x (by decide)
  obtain ⟨b1, hb1, hb1tx, hbets1⟩ := H1.1
  have hss1 := H1.2.1
  have hwal1 := H1.2.2.1
  have hev1 := H1.2.2.2.1
  have htoday1 := H1.2.2.2.2
  have hss1' : (process_detected_transaction cfgStrict "E1" stEmpty
      txT1).2.serverSeeds =
      [{ server_seed := "E1", server_seed_hash := hash_seed "E1",
         seed_date := "2026-10-12", bet_count := 1 }] := by
    rw [hss1]
    simp [ensureTodayServerSeed, incSeedBetCount, stEmpty]
  have hev1' : (process_detected_transaction cfgStrict "E1" stEmpty
      txT1).2.events = [] := by
    rw [hev1]
    simp [ensureTodayServerSeed, stEmpty]
  have hwal1' : (process_detected_transaction cfgStrict "E1" stEmpty
      txT1).2.wallets =
      [{ wVault with total_received := 10000, bet_count := 1 }] := by
    rw [hwal1]
    simp [recordReceived, wVault, stEmpty, txT1]
  have hnobet2 : findBetByTxid (process_detected_transaction cfgStrict "E1"
      stEmpty txT1).2.bets txT2.txid = none := by
    rw [hbets1]
    simp [findBetByTxid, stEmpty, List.find?, hb1tx, txT2, txT1]
  have hw2 : findWalletByAddress (process_detected_transaction cfgStrict "E1"
      stEmpty txT1).2.wallets txT2.to_address =
      some { wVault with total_received := 10000, bet_count := 1 } := by
    rw [hwal1']
    simp [findWalletByAddress, List.find?, wVault, txT2, txT1]
  have H2 := process_creates_bet cfgStrict "E2"
    (process_detected_transaction cfgStrict "E1" stEmpty txT1).2 txT2
    { wVault with total_received := 10000, bet_count := 1 }
    hnobet2 (by decide) hw2 validate_10000_2x (by decide)
  have hev2 := H2.2.2.2.1
  refine ⟨rfl, ?_, ?_, ?_⟩
  · rw [hss1']
    rfl
  · rw [hev1']
    rfl
  · rw [hev2, hev1', htoday1, hss1']
    simp [ensureTodayServerSeed, List.countP, List.countP.go,
      isSeedHashUpdateEvent]

/-! ## C9: invalid bet parameters -/

/-- C9 counterexample: a deposit of 100 satoshis (below the 600 minimum) is
marked processed and creates no bet, but it is not side-effect free: a user
record is created for the sender and the daily server seed's `bet_count` is
incremented before validation runs. -/
theorem invalid_bet_still_mutates_user_and_seed :
    (process_detected_transaction cfgStrict "E3" stSeeded txT3).1 = none ∧
    (((process_detected_transaction cfgStrict "E3" stSeeded txT3).2.txs.find?
      (fun t => t.txid == "T3")).map (fun t => t.is_processed)) = some true ∧
    stSeeded.users = [] ∧
    (process_detected_transaction cfgStrict "E3" stSeeded txT3).2.users ≠
      [] ∧
    seedToday.bet_count = 0 ∧
    (process_detected_transaction cfgStrict "E3" stSeeded
      txT3).2.serverSeeds ≠ stSeeded.serverSeeds := by
  decide

/-- C9 (amended). A deposit whose amount or multiplier violates the
configured bounds is marked processed and creates no bet, and the bets, the
bet-number counter, the vault wallets and the payouts are untouched — but the
user record, the user seed and the daily server seed may already have been
created or incremented before validation, so persisted state is not entirely
unchanged. -/
theorem invalid_params_mark_processed_no_bet (cfg : Config) (entropy : String)
    (st : DBState) (tx : DetectedTx) (w : Wallet)
    (hnobet : findBetByTxid st.bets tx.txid = none)
    (hunproc : tx.is_processed = false)
    (hw : findWalletByAddress st.wallets tx.to_address = some w)
    (hinvalid : validate_bet_params cfg tx.amount (w.multiplier : ℚ) = false) :
    (process_detected_transaction cfg entropy st tx).1 = none ∧
    (process_detected_transaction cfg entropy st tx).2.bets = st.bets ∧
    (process_detected_transaction cfg entropy st tx).2.counterSeq =
      st.counterSeq ∧
    (process_detected_transaction cfg entropy st tx).2.wallets = st.wallets ∧
    (process_detected_transaction cfg entropy st tx).2.payouts = st.payouts ∧
    (process_detected_transaction cfg entropy st tx).2.txs =
      markTxProcessed st.txs tx.txid none := by
  unfold process_detected_transaction
  rw [hnobet, hunproc]
  simp only [Bool.not_false, if_true, hw, hinvalid, Bool.not_true, if_false]
  rw [if_neg (by simp)]
  split <;> simp

/-- Witness for C9 (amended) at the 100-satoshi deposit. -/
theorem invalid_params_mark_processed_no_bet_witness :
    (findBetByTxid stSeeded.bets txT3.txid = none ∧
      txT3.is_processed = false ∧
      findWalletByAddress stSeeded.wallets txT3.to_address = some wVault ∧
      validate_bet_params cfgStrict txT3.amount ((wVault.multiplier : ℚ)) =
        false) ∧
    ((process_detected_transaction cfgStrict "E3" stSeeded txT3).1 = none ∧
      (process_detected_transaction cfgStrict "E3" stSeeded txT3).2.bets =
        stSeeded.bets ∧
      (process_detected_transaction cfgStrict "E3" stSeeded
          txT3).2.counterSeq = stSeeded.counterSeq ∧
      (process_detected_transaction cfgStrict "E3" stSeeded txT3).2.wallets =
        stSeeded.wallets ∧
      (process_detected_transaction cfgStrict "E3" stSeeded txT3).2.payouts =
        stSeeded.payouts ∧
      (process_detected_transaction cfgStrict "E3" stSeeded txT3).2.txs =
        markTxProcessed stSeeded.txs txT3.txid none) :=
  ⟨⟨by decide, by decide, by decide, by decide⟩,
    invalid_params_mark_processed_no_bet cfgStrict "E3" stSeeded txT3 wVault
      (by decide) (by decide) (by decide) (by decide)⟩

/-! ## C3: `BetResult` ordering against the payout txb persistence -/

/-- C3 (code bug). `process_winning_bet` runs the broadcast in a detached
`asyncio` task, so the instruction streams of `roll_and_payout_bet` (which
publishes the `BetResult`) and of `_async_broadcast_and_update` (which
persists the payout txid) interleave. In the schedule where the caller
finishes before the spawned task — the one `asyncio` actually produces, since
the spawned task starts with a 3-second settle sleep — the `BetResult` for a
winning bet is published carrying `payout_txid = null`, and the payout
transaction id `TP1` is recorded afterwards; the bet record's `payout_txid`
is never set at all on this path. This contradicts the source's own comment
`Broadcast bet result AFTER storing everything`. -/
theorem bet_result_published_before_payout_txid_persisted :
    PayoutFlow.Interleave PayoutFlow.mainActs (PayoutFlow.bgActs "TP1")
      (PayoutFlow.mainActs ++ PayoutFlow.bgActs "TP1") ∧
    (PayoutFlow.run (PayoutFlow.mainActs ++ PayoutFlow.bgActs "TP1")).published
      = [none] ∧
    (PayoutFlow.run (PayoutFlow.mainActs ++ PayoutFlow.bgActs "TP1")).payoutTxid
      = some "TP1" ∧
    (PayoutFlow.run (PayoutFlow.mainActs ++ PayoutFlow.bgActs "TP1")).betPayoutTxid
      = none := by
  refine ⟨?_, by decide, by decide, by decide⟩
  show PayoutFlow.Interleave
    [.createPayout, .setBetTxidFromSnapshot, .readBetAndPublish]
    [.broadcastAndPersistTxid "TP1", .setBetPaid]
    [.createPayout, .setBetTxidFromSnapshot, .readBetAndPublish,
      .broadcastAndPersistTxid "TP1", .setBetPaid]
  exact .left (.left (.left (.right (.right .nil))))

end Dice
